import Mathlib

set_option maxRecDepth 100000

/-!
Verification of the lazycommit tool (cmd/lazycommit/main.go): a shallow
embedding of its diff-truncation, exclude-pattern assembly, configuration
resolution, VCS selection and orchestration logic, with theorems settling
the claims of the specification about them.

Go conventions mirrored here:
  - a Go function returning (T, error) becomes a value of `Except String T`;
  - a Go function that can additionally panic at runtime (slice index out of
    range) becomes a value of `GoOutcome T` with a dedicated `panic` outcome;
  - Go `int` becomes `Int` (64-bit overflow is irrelevant to every claim);
  - the process environment (files, subprocess results, environment
    variables) is passed explicitly as data.
-/

/-- Equality of Go-style results is decidable, so concrete runs can be
checked by evaluation. -/
instance {ε α : Type} [DecidableEq ε] [DecidableEq α] : DecidableEq (Except ε α)
  | .ok a, .ok b =>
    if h : a = b then .isTrue (by rw [h]) else
      .isFalse (fun hc => h (Except.ok.injEq .. ▸ hc))
  | .error a, .error b =>
    if h : a = b then .isTrue (by rw [h]) else
      .isFalse (fun hc => h (Except.error.injEq .. ▸ hc))
  | .ok _, .error _ => .isFalse (fun hc => Except.noConfusion hc)
  | .error _, .ok _ => .isFalse (fun hc => Except.noConfusion hc)

/-- Outcome of a Go computation that returns a value or an error, or aborts
with a runtime panic (e.g. a slice bound violation). -/
inductive GoOutcome (α : Type) where
  | ok (val : α)
  | error (msg : String)
  | panic
deriving DecidableEq, Repr

/-- Modelled from the spec: the tokenizer is an external collaborator
(the Cl100kBase encoding of the tiktoken-go library, not part of this
repository). Per the spec it exposes an encode step from text to a
sequence of token ids and a decode step back to text, either of which may
fail. -/
structure Tokenizer where
  encode : String → Except String (List Nat)
  decode : List Nat → Except String String

/-- Modelled from the spec: a concrete tokenizer instance used to evaluate
the embedded code on concrete inputs (the spec treats the tokenizer
definition as fixed but external). One token per character: encode maps
each character to its code point; decode maps code points back. It
satisfies the round-trip behaviour the spec assumes of the real
tokenizer. -/
def charTokenizer : Tokenizer where
  encode s := .ok (s.toList.map Char.toNat)
  decode ts := .ok (String.mk (ts.map Char.ofNat))

/-- The notice appended by truncateDiff, from main.go line 259:
"\n\n[Diff truncated due to size - showing first %d tokens]". -/
def truncationNotice (maxTokens : Int) : String :=
  "\n\n[Diff truncated due to size - showing first " ++ toString maxTokens ++ " tokens]"

/-- truncateDiff, main.go lines 231-262. `getTok` is the result of
`tokenizer.Get(tokenizer.Cl100kBase)`. The Go code slices
`tokens[:maxTokens]`; that slice is reached only when
`maxTokens < len(tokens)`, and it panics at runtime when `maxTokens` is
negative — modelled by the `panic` outcome. -/
def truncateDiff (getTok : Except String Tokenizer) (diff : String)
    (maxTokens : Int) : GoOutcome String :=
  match getTok with
  | .error e => .error ("failed to get tokenizer: " ++ e)
  | .ok enc =>
    match enc.encode diff with
    | .error e => .error ("failed to encode diff: " ++ e)
    | .ok tokens =>
      if (tokens.length : Int) ≤ maxTokens then
        .ok diff
      else if maxTokens < 0 then
        .panic
      else
        match enc.decode (tokens.take maxTokens.toNat) with
        | .error e => .error ("failed to decode truncated tokens: " ++ e)
        | .ok truncatedDiff => .ok (truncatedDiff ++ truncationNotice maxTokens)

example : truncateDiff (.ok charTokenizer) "ab" 5 = .ok "ab" := by decide

example : truncateDiff (.ok charTokenizer) "ab" 1 =
    .ok ("a" ++ truncationNotice 1) := by decide

example : truncateDiff (.ok charTokenizer) "ab" (-1) = .panic := by decide

/-- The Perl class of Go regexp, \s, i.e. the characters tab, newline, form feed,
carriage return and space, as used by the .gitattributes pattern in
main.go line 354. -/
def goWS (c : Char) : Bool :=
  c = ' ' || c = Char.ofNat 9 || c = Char.ofNat 10 || c = Char.ofNat 12 ||
    c = Char.ofNat 13

/-- Drop a literal character sequence from the front of a list, returning
the remainder, or `none` when the list does not start with it. -/
def dropLit : List Char → List Char → Option (List Char)
  | [], l => some l
  | _ :: _, [] => none
  | p :: ps, c :: cs => if c = p then dropLit ps cs else none

/-- Whether the list starts with an occurrence of the regular expression
fragment `linguist-generated\s*=\s*true` of main.go line 354: the literal
attribute name, any whitespace, an equals sign, any whitespace, then the
literal `true`. -/
def linguistAttrAt (l : List Char) : Bool :=
  match dropLit "linguist-generated".toList l with
  | none => false
  | some r1 =>
    match r1.dropWhile goWS with
    | c :: r2 => c = '=' && "true".toList.isPrefixOf (r2.dropWhile goWS)
    | [] => false

/-- Whether `linguist-generated\s*=\s*true` occurs anywhere in the list
(this realizes the unanchored `.*linguist-generated\s*=\s*true` tail of
the regular expression of main.go line 354). -/
def containsLinguist : List Char → Bool
  | [] => false
  | c :: t => linguistAttrAt (c :: t) || containsLinguist t

/-- One line of .gitattributes matched against the regular expression
`^([^#][^\s]+)\s+.*linguist-generated\s*=\s*true` of main.go line 354,
returning the capture group (the leading path pattern) on a match. The
anchored greedy prefix `([^#][^\s]+)\s+` forces the capture to be the
first character (which must not be '#') followed by the maximal run of
non-whitespace characters, which must be non-empty and be followed by at
least one whitespace character. -/
def parseGitattributesLine (line : String) : Option String :=
  match line.toList with
  | [] => none
  | c0 :: rest =>
    if c0 = '#' then none
    else
      match rest.takeWhile (fun c => !goWS c), rest.dropWhile (fun c => !goWS c) with
      | [], _ => none
      | _ :: _, [] => none
      | run, _ :: tailChars =>
        if containsLinguist tailChars then some (String.mk (c0 :: run)) else none

/-- bufio.Scanner line splitting (bufio.ScanLines) as used in main.go
lines 353-362: tokens are separated by newline characters, a trailing
carriage return is stripped from each token, and no final empty token is
produced at end of input. -/
def splitLinesAux : List Char → List Char → List String
  | [], acc => if acc.isEmpty then [] else [String.mk acc.reverse]
  | c :: rest, acc =>
    if c = Char.ofNat 10 then String.mk acc.reverse :: splitLinesAux rest []
    else splitLinesAux rest (c :: acc)

/-- Strip one trailing carriage return, as the dropCR helper of bufio.ScanLines does. -/
def dropCR (line : String) : String :=
  match line.toList.reverse with
  | c :: front => if c = Char.ofNat 13 then String.mk front.reverse else line
  | [] => line

/-- Split file content into the lines bufio.Scanner yields. -/
def splitLines (content : String) : List String :=
  (splitLinesAux content.toList []).map dropCR

/-- The patterns contributed by a list of .gitattributes lines: each line
is matched independently and non-matching lines contribute nothing
(main.go lines 356-362). -/
def gitattributesPatternsOfLines (lines : List String) : List String :=
  lines.filterMap parseGitattributesLine

/-- getGeneratedFilesFromGitattributes, main.go lines 344-369, as a
function of the .gitattributes file content. (The Go error paths — the
file failing to open, or the scanner failing on an over-long line — do
not arise for in-memory content and are not modelled.) -/
def getGeneratedFilesFromGitattributes (content : String) : List String :=
  gitattributesPatternsOfLines (splitLines content)

example : getGeneratedFilesFromGitattributes
    "# comment\ngenerated.go linguist-generated=true\nplain.go diff\n" =
    ["generated.go"] := by decide

example : getGeneratedFilesFromGitattributes
    "a.go linguist-generated = true" = ["a.go"] := by decide

/-- The fixed lock-file names always excluded, main.go lines 302-306. -/
def commonExcludes : List String :=
  ["pnpm-lock.yaml", "yarn.lock", "package-lock.json"]

/-- The patterns taken from .gitattributes in getDiff, main.go lines
308-315: only when using Git and the file exists. -/
def gitattributesPatterns (isGit : Bool) (gitattributes : Option String) :
    List String :=
  if isGit then
    match gitattributes with
    | some content => getGeneratedFilesFromGitattributes content
    | none => []
  else []

/-- The full exclude-pattern list assembled by getDiff, main.go lines
299-318: patterns from .gitattributes first, then the fixed lock-file
names. -/
def assembleExcludePatterns (isGit : Bool) (gitattributes : Option String) :
    List String :=
  gitattributesPatterns isGit gitattributes ++ commonExcludes

/-- The argument list getDiff hands to the VCS binary, main.go lines
320-334: `git diff --cached -- . :(exclude)P...` for Git and
`jj diff --git ~P...` for Jujutsu. -/
def buildDiffArgs (isGit : Bool) (patterns : List String) : List String :=
  if isGit then
    ["diff", "--cached", "--", "."] ++ patterns.map (fun p => ":(exclude)" ++ p)
  else
    ["diff", "--git"] ++ patterns.map (fun p => "~" ++ p)

/-- PromptData, main.go lines 104-108: the two substitution fields of the
prompt template. -/
structure PromptData where
  branch : String
  userContext : String
deriving DecidableEq, Repr

/-- A parsed prompt-template element: literal text (one character at a
time) or one of the two field actions. -/
inductive TmplPart where
  | lit (c : Char)
  | fieldBranch
  | fieldUserContext
deriving DecidableEq, Repr

/-- The left curly brace character. -/
def lbrace : Char := Char.ofNat 123

/-- The right curly brace character. -/
def rbrace : Char := Char.ofNat 125

/-- Interpret the content of a template action: surrounding whitespace is
trimmed, and the two field selectors of PromptData are recognized. Any
other action is a template error (in Go an unknown field fails at
Execute time; here parse and execute errors are merged, which no claim
distinguishes). -/
def dirToPart (acc : List Char) : Option TmplPart :=
  let core := ((acc.dropWhile goWS).reverse.dropWhile goWS).reverse
  if core = ".Branch".toList then some .fieldBranch
  else if core = ".UserContext".toList then some .fieldUserContext
  else none

/-- Lexing state for the template scanner: plain text, text having just
seen one left brace, inside an action with accumulated (reversed)
content, or inside an action having just seen one right brace. -/
inductive TmplMode where
  | text
  | sawL
  | dir (acc : List Char)
  | sawR (acc : List Char)
deriving DecidableEq, Repr

/-- The running state of the template scanner: the lexing mode, the parts
produced so far (in reverse), and the first error encountered, if any. -/
structure TmplScan where
  mode : TmplMode
  parts : List TmplPart
  err : Option String
deriving DecidableEq, Repr

/-- Modelled from the spec: the text/template parsing of Go (an external
library), restricted to the two-field template language the spec
describes ("template substitutes branch name and free-form user-supplied
context"). One step of the scanner: literal text passes through (a lone
brace is literal), a double left brace opens an action closed by a
double right brace, and an unrecognized action is an error. -/
def tmplStep (s : TmplScan) (c : Char) : TmplScan :=
  match s.err with
  | some _ => s
  | none =>
    match s.mode with
    | .text =>
      if c = lbrace then { s with mode := .sawL }
      else { s with parts := .lit c :: s.parts }
    | .sawL =>
      if c = lbrace then { s with mode := .dir [] }
      else { s with mode := .text, parts := .lit c :: .lit lbrace :: s.parts }
    | .dir acc =>
      if c = rbrace then { s with mode := .sawR acc }
      else { s with mode := .dir (c :: acc) }
    | .sawR acc =>
      if c = rbrace then
        match dirToPart acc.reverse with
        | some p => { s with mode := .text, parts := p :: s.parts }
        | none => { s with err := some "unrecognized action" }
      else { s with mode := .dir (c :: rbrace :: acc) }

/-- Finish the scan: a template ending inside an action is an error; a
trailing lone left brace is literal. -/
def tmplFinish (s : TmplScan) : Except String (List TmplPart) :=
  match s.err with
  | some e => .error e
  | none =>
    match s.mode with
    | .text => .ok s.parts.reverse
    | .sawL => .ok (TmplPart.lit lbrace :: s.parts).reverse
    | .dir _ => .error "unclosed action"
    | .sawR _ => .error "unclosed action"

/-- Parse a template string into its parts (template.New("prompt").Parse
in main.go line 283, restricted as in `tmplStep`). -/
def parseTemplate (s : String) : Except String (List TmplPart) :=
  tmplFinish (s.toList.foldl tmplStep ⟨.text, [], none⟩)

/-- The control part (mode and error) of one scanner step: the control
flow of the scanner never depends on the parts accumulated so far. -/
def tmplControl (me : TmplMode × Option String) (c : Char) :
    TmplMode × Option String :=
  let s := tmplStep ⟨me.1, [], me.2⟩ c
  (s.mode, s.err)

/-- The text one template part contributes when executed with `data`. -/
def partText (data : PromptData) : TmplPart → String
  | .lit c => String.mk [c]
  | .fieldBranch => data.branch
  | .fieldUserContext => data.userContext

/-- Execute parsed template parts with the given data (tmpl.Execute in
main.go line 290). -/
def renderParts (parts : List TmplPart) (data : PromptData) : String :=
  parts.foldr (fun p acc => partText data p ++ acc) ""

/-- The lines of DefaultPromptTemplate, main.go lines 111-124, character
for character (curly braces and apostrophes written as \x escapes),
kept as a list so proofs can process the long constant line by line. -/
def defaultTemplateChunks : List String :=
  ["You are an expert programmer helping to write concise, informative git commit messages. \n",
   "The user will provide you with a git diff, and you will respond with ONLY a commit message.\n",
   "\n",
   "Here are the characteristics of a good commit message:\n",
   "- Start with a short summary line (50-72 characters)\n",
   "- Use the imperative mood (\"Add feature\" not \"Added feature\")\n",
   "- Optionally include a more detailed explanatory paragraph after the summary, separated by a blank line\n",
   "- Explain WHAT changed and WHY, but not HOW (that\x27s in the diff)\n",
   "- Reference relevant issue numbers if applicable (e.g. \"Fixes #123\")\n",
   "\n",
   "Current branch: \x7b\x7b.Branch\x7d\x7d\n",
   "User context: \x7b\x7b.UserContext\x7d\x7d\n",
   "\n",
   "Respond with ONLY the commit message, no additional explanations, introductions, or notes."]

/-- DefaultPromptTemplate, main.go lines 111-124: the concatenation of its
lines. -/
def DefaultPromptTemplate : String :=
  String.join defaultTemplateChunks

/-- renderPromptTemplate, main.go lines 265-295, with the file system
passed explicitly: `fs path` is the content of the file at `path`, or
`none` when no such file exists (fileExists plus os.ReadFile; the
read-after-stat race has no pure counterpart). When the path is empty or
the file does not exist, the embedded default template is used. -/
def renderPromptTemplate (fs : String → Option String) (templatePath : String)
    (data : PromptData) : Except String String :=
  let tmplContent :=
    if templatePath = "" then DefaultPromptTemplate
    else
      match fs templatePath with
      | some content => content
      | none => DefaultPromptTemplate
  match parseTemplate tmplContent with
  | .error e => .error ("failed to parse template: " ++ e)
  | .ok parts => .ok (renderParts parts data)

example : renderPromptTemplate (fun p => if p = "t" then some "A: \x7b\x7b.Branch\x7d\x7d" else none)
    "t" ⟨"main", ""⟩ = .ok "A: main" := by decide

example : renderPromptTemplate (fun p => if p = "t" then some "B \x7b\x7b .UserContext \x7d\x7d!" else none)
    "t" ⟨"", "ctx"⟩ = .ok "B ctx!" := by decide

example : renderPromptTemplate (fun _ => some "\x7b\x7b.Nope\x7d\x7d") "t" ⟨"", ""⟩ =
    .error "failed to parse template: unrecognized action" := by decide

/-- AppConfig, main.go lines 91-95: the configuration resolved from the
config file and environment. -/
structure AppConfig where
  maxDiffTokens : Int
  promptPath : String
  modelName : String
deriving DecidableEq, Repr

/-- DefaultConfig, main.go lines 98-102. -/
def DefaultConfig : AppConfig :=
  { maxDiffTokens := 12500, promptPath := "", modelName := "" }

/-- The keys a TOML config file may set: toml.DecodeFile leaves a struct
field untouched when the file has no entry for it, so each key is
optional (main.go line 46). -/
structure TomlFileOverrides where
  maxDiffTokens : Option Int
  promptPath : Option String
  modelName : Option String
deriving DecidableEq, Repr

/-- Overlay the keys present in a config file onto a configuration, as
toml.DecodeFile into an already-populated struct does. -/
def applyToml (c : AppConfig) (f : TomlFileOverrides) : AppConfig :=
  { maxDiffTokens := f.maxDiffTokens.getD c.maxDiffTokens,
    promptPath := f.promptPath.getD c.promptPath,
    modelName := f.modelName.getD c.modelName }

/-- The three environment variables read by loadConfig, main.go lines
60-75. os.Getenv yields the empty string for an unset variable, and the
code treats empty as unset, so each is a plain string. -/
structure EnvVars where
  lazycommitMaxTokens : String
  lazycommitTemplate : String
  lazycommitModel : String
deriving DecidableEq, Repr

/-- strconv.Atoi of Go, main.go line 61: an optional sign followed by at
least one decimal digit, nothing else, and the value must fit in a
signed 64-bit integer; anything else is an error (`none`). -/
def goAtoi (s : String) : Option Int :=
  let signDigits : Int × List Char :=
    match s.toList with
    | '+' :: r => (1, r)
    | '-' :: r => (-1, r)
    | r => (1, r)
  match signDigits with
  | (sign, digits) =>
    if digits.isEmpty then none
    else if digits.all Char.isDigit then
      let v : Int := sign * (digits.foldl (fun a c => a * 10 + ((c.toNat : Int) - 48)) 0)
      if -(2 ^ 63) ≤ v ∧ v ≤ 2 ^ 63 - 1 then some v else none
    else none

example : goAtoi "128" = some 128 := by decide
example : goAtoi "-12" = some (-12) := by decide
example : goAtoi "abc" = none := by decide
example : goAtoi "12x" = none := by decide
example : goAtoi "" = none := by decide

/-- loadConfig, main.go lines 20-78, as a function of the config files
found at the candidate paths (in order of precedence; `none` marks a
path with no file) and the environment. Defaults are overlaid by the
first existing config file, then the environment variables override:
LAZYCOMMIT_MAX_TOKENS only when set and parseable as an integer,
LAZYCOMMIT_TEMPLATE and LAZYCOMMIT_MODEL whenever set. (The error paths
— home directory unresolvable, TOML decode failure — make main fall back
to DefaultConfig and are outside every claim.) -/
def loadConfig (files : List (Option TomlFileOverrides)) (env : EnvVars) :
    AppConfig :=
  let c0 := DefaultConfig
  let c1 :=
    match (files.filterMap id).head? with
    | some f => applyToml c0 f
    | none => c0
  let c2 :=
    if env.lazycommitMaxTokens ≠ "" then
      match goAtoi env.lazycommitMaxTokens with
      | some n => { c1 with maxDiffTokens := n }
      | none => c1
    else c1
  let c3 :=
    if env.lazycommitTemplate ≠ "" then { c2 with promptPath := env.lazycommitTemplate }
    else c2
  if env.lazycommitModel ≠ "" then { c3 with modelName := env.lazycommitModel }
  else c3

example : (loadConfig [] ⟨"", "", ""⟩).maxDiffTokens = 12500 := by decide
example : (loadConfig [none, some ⟨some 9, none, none⟩] ⟨"", "", ""⟩).maxDiffTokens = 9 := by decide
example : (loadConfig [some ⟨some 9, none, none⟩] ⟨"70", "", ""⟩).maxDiffTokens = 70 := by decide

/-- The VCS selection of main, main.go lines 133-143: `none` when neither
repository kind is detected (the program exits with an error), otherwise
`some useGit` with `useGit := isGit && !isJJ` ("Prefer Jujutsu if both
are available"). -/
def selectVCS (isGit isJJ : Bool) : Option Bool :=
  if !isGit && !isJJ then none
  else some (isGit && !isJJ)

/-- Config, main.go lines 82-88: the per-run configuration handed to
generateCommitMessage. -/
structure Config where
  maxDiffSize : Int
  promptPath : String
  userContext : String
  isGit : Bool
  modelName : String
deriving DecidableEq, Repr

/-- The environment a run interacts with, passed explicitly: the branch
name getBranchName resolves (best effort, empty on failure), the file
system for template files, the .gitattributes content when that file
exists, the result of `tokenizer.Get`, the output of the VCS diff
subprocess for a given invocation, and the LLM subprocess as a function
from (model flag, system prompt, standard input) to the text it writes
to standard output and its error status (`none` = exit 0). -/
structure World where
  branch : String
  fs : String → Option String
  gitattributes : Option String
  getTok : Except String Tokenizer
  vcsOutput : Bool → List String → Except String String
  llm : Option String → String → String → String × Option String

/-- getDiff, main.go lines 298-342: assemble the exclude patterns, build
the VCS invocation, and return its output. -/
def getDiff (w : World) (config : Config) : Except String String :=
  let excludePatterns := assembleExcludePatterns config.isGit w.gitattributes
  w.vcsOutput config.isGit (buildDiffArgs config.isGit excludePatterns)

/-- What a run of generateCommitMessage did: the text written to the
standard output of the program, the standard input handed to the LLM
subprocess (`none` when the LLM was never invoked), and the result of
the function. -/
structure GenResult where
  stdoutText : String
  llmStdin : Option String
  outcome : GoOutcome Unit
deriving DecidableEq, Repr

/-- The model flag passed to the llm command, main.go lines 212-221:
`-m` with the configured model name when one is set. -/
def modelArg (config : Config) : Option String :=
  if config.modelName ≠ "" then some config.modelName else none

/-- Invoking the llm subprocess, main.go lines 212-227: its standard
output is wired directly to the standard output of the program, the given
text is its standard input, and its error status is the
result. -/
def runLlmStep (w : World) (config : Config) (prompt stdin : String) :
    GenResult :=
  let r := w.llm (modelArg config) prompt stdin
  { stdoutText := r.1,
    llmStdin := some stdin,
    outcome := match r.2 with | none => .ok () | some e => .error e }

/-- generateCommitMessage, main.go lines 182-228: render the prompt
(fatal on error), collect the diff (fatal on error), truncate it
(falling back to the raw diff with a warning on error, propagating a
panic), then run the LLM subprocess. -/
def generateCommitMessage (w : World) (config : Config) : GenResult :=
  match renderPromptTemplate w.fs config.promptPath ⟨w.branch, config.userContext⟩ with
  | .error e =>
    { stdoutText := "", llmStdin := none,
      outcome := .error ("failed to render prompt template: " ++ e) }
  | .ok prompt =>
    match getDiff w config with
    | .error e =>
      { stdoutText := "", llmStdin := none,
        outcome := .error ("failed to get diff: " ++ e) }
    | .ok diff =>
      match truncateDiff w.getTok diff config.maxDiffSize with
      | .panic => { stdoutText := "", llmStdin := none, outcome := .panic }
      | .ok truncated => runLlmStep w config prompt truncated
      | .error _ => runLlmStep w config prompt diff

/-- A file system exposing one small template file, used by concrete
runs. -/
def tinyFs : String → Option String :=
  fun p => if p = "t" then some "hi" else none

/-- A concrete configuration for evaluated runs: generous token budget,
the small template file, no user context, Git, default model. -/
def cfgTiny : Config :=
  { maxDiffSize := 100, promptPath := "t", userContext := "", isGit := true,
    modelName := "" }

/-- A world in which every step succeeds but the LLM subprocess writes
partial text to standard output and then exits non-zero. -/
def worldLlmFails : World :=
  { branch := "main", fs := tinyFs, gitattributes := none,
    getTok := .ok charTokenizer,
    vcsOutput := fun _ _ => .ok "d",
    llm := fun _ _ _ => ("feat: partial", some "exit status 1") }

/-- A world in which the VCS diff subprocess fails. -/
def worldDiffFails : World :=
  { branch := "main", fs := tinyFs, gitattributes := none,
    getTok := .ok charTokenizer,
    vcsOutput := fun _ _ => .error "exit status 128",
    llm := fun _ _ _ => ("", none) }

/-- A world in which the tokenizer cannot be obtained but everything else
succeeds. -/
def worldNoTokenizer : World :=
  { branch := "main", fs := tinyFs, gitattributes := none,
    getTok := .error "boom",
    vcsOutput := fun _ _ => .ok "the diff",
    llm := fun _ _ _ => ("a commit message", none) }

/-- Claim C4: when the encoded token count of the diff is at most
maxTokens, truncateDiff returns exactly the input text unchanged. -/
theorem truncateDiffIdentityWithinBudget (tok : Tokenizer) (diff : String)
    (tokens : List Nat) (maxTokens : Int)
    (hEnc : tok.encode diff = .ok tokens)
    (hLe : (tokens.length : Int) ≤ maxTokens) :
    truncateDiff (.ok tok) diff maxTokens = .ok diff := by
  simp [truncateDiff, hEnc, hLe]

theorem truncateDiffIdentityWithinBudget_witness :
    truncateDiff (.ok charTokenizer) "hi" 10 = .ok "hi" :=
  truncateDiffIdentityWithinBudget charTokenizer "hi" [104, 105] 10
    (by decide) (by decide)

/-- Claim C1, counterexample: with a tokenizer under which decoding is the
exact inverse of encoding, the diff "ab" exceeds a budget of 1 token, and
the text truncateDiff returns re-encodes to far more than 1 token,
because the truncation notice is appended after the text was cut to the
budget. -/
theorem truncateDiffOverBudget_cex :
    charTokenizer.encode "ab" = .ok [97, 98] ∧
    ¬ (([97, 98] : List Nat).length : Int) ≤ 1 ∧
    truncateDiff (.ok charTokenizer) "ab" 1 = .ok ("a" ++ truncationNotice 1) ∧
    charTokenizer.encode ("a" ++ truncationNotice 1) =
      .ok (("a" ++ truncationNotice 1).toList.map Char.toNat) ∧
    ¬ ((("a" ++ truncationNotice 1).toList.map Char.toNat).length : Int) ≤ 1 := by
  decide

/-- Claim C1, amended: for every diff whose encoded token count exceeds a
non-negative maxTokens, truncateDiff returns the decoding of the first
maxTokens tokens with the truncation notice (which states that maxTokens
tokens were kept) appended; the kept token prefix has exactly maxTokens
tokens, but the returned text itself re-encodes to more than maxTokens
tokens because of the appended notice. -/
theorem truncateDiffOverBudget (tok : Tokenizer) (diff td : String)
    (tokens : List Nat) (maxTokens : Int)
    (hEnc : tok.encode diff = .ok tokens)
    (hGt : maxTokens < (tokens.length : Int))
    (hNN : 0 ≤ maxTokens)
    (hDec : tok.decode (tokens.take maxTokens.toNat) = .ok td) :
    truncateDiff (.ok tok) diff maxTokens = .ok (td ++ truncationNotice maxTokens) ∧
    ((tokens.take maxTokens.toNat).length : Int) = maxTokens := by
  constructor
  · simp [truncateDiff, hEnc, not_le.mpr hGt, not_lt.mpr hNN, hDec]
  · rw [List.length_take]
    omega

theorem truncateDiffOverBudget_witness :
    truncateDiff (.ok charTokenizer) "ab" 1 = .ok ("a" ++ truncationNotice 1) ∧
    ((([97, 98] : List Nat).take (1 : Int).toNat).length : Int) = 1 :=
  truncateDiffOverBudget charTokenizer "ab" "a" [97, 98] 1
    (by decide) (by decide) (by decide) (by decide)

/-- Claim C9: when the diff has at least one token and maxTokens is
negative, the size check sends truncateDiff into the truncation branch
and the slice tokens[:maxTokens] is out of bounds, so the call panics
rather than returning an error value. -/
theorem truncateDiffNegativePanics (tok : Tokenizer) (diff : String)
    (tokens : List Nat) (maxTokens : Int)
    (hEnc : tok.encode diff = .ok tokens)
    (hPos : 1 ≤ tokens.length)
    (hNeg : maxTokens < 0) :
    truncateDiff (.ok tok) diff maxTokens = .panic := by
  have h1 : ¬ ((tokens.length : Int) ≤ maxTokens) := by
    have : (1 : Int) ≤ (tokens.length : Int) := by exact_mod_cast hPos
    omega
  simp [truncateDiff, hEnc, h1, hNeg]

theorem truncateDiffNegativePanics_witness :
    truncateDiff (.ok charTokenizer) "a" (-1) = .panic :=
  truncateDiffNegativePanics charTokenizer "a" [97] (-1)
    (by decide) (by decide) (by decide)

/-- Claim C7: across all four combinations of repository-detection
results, Jujutsu is selected whenever it is detected; Git is used only
when Git is detected and Jujutsu is not; neither detected is a fatal
error. -/
theorem selectVCSPrefersJujutsu :
    selectVCS true true = some false ∧
    selectVCS true false = some true ∧
    selectVCS false true = some false ∧
    selectVCS false false = none := by
  decide

/-- Claim C2, counterexample: a .gitattributes file marking yarn.lock as
generated makes getDiff assemble an exclude-pattern list containing
yarn.lock twice, since the parsed patterns are appended to the fixed
lock-file names without deduplication. -/
theorem excludePatternsDuplicate_cex :
    assembleExcludePatterns true (some "yarn.lock linguist-generated=true") =
      ["yarn.lock", "pnpm-lock.yaml", "yarn.lock", "package-lock.json"] ∧
    ¬ (assembleExcludePatterns true (some "yarn.lock linguist-generated=true")).Nodup := by
  decide

/-- Claim C2, amended: the assembled exclude-pattern list is the
.gitattributes-derived patterns followed by the fixed lock-file names,
with no deduplication; it is duplicate-free exactly when the
.gitattributes-derived patterns are themselves duplicate-free and none of
them equals a fixed lock-file name. -/
theorem excludePatternsNodupWhenDisjoint (isGit : Bool)
    (gitattributes : Option String)
    (h1 : (gitattributesPatterns isGit gitattributes).Nodup)
    (h2 : ∀ p ∈ gitattributesPatterns isGit gitattributes, p ∉ commonExcludes) :
    (assembleExcludePatterns isGit gitattributes).Nodup := by
  unfold assembleExcludePatterns
  refine List.Nodup.append h1 (by decide) ?_
  intro a ha hb
  exact h2 a ha hb

theorem excludePatternsNodupWhenDisjoint_witness :
    (assembleExcludePatterns true (some "generated.go linguist-generated=true")).Nodup :=
  excludePatternsNodupWhenDisjoint true (some "generated.go linguist-generated=true")
    (by decide) (by decide)

/-- Claim C6, counterexample: with the token-budget environment variable
set to "abc" (set but not an integer), the resolved budget follows the
config-file value rather than the environment, so a set environment
variable does not always determine the budget. -/
theorem envTokenBudgetInvalid_cex :
    ("abc" : String) ≠ "" ∧
    goAtoi "abc" = none ∧
    (loadConfig [some ⟨some 500, none, none⟩] ⟨"abc", "", ""⟩).maxDiffTokens = 500 ∧
    (loadConfig [some ⟨some 700, none, none⟩] ⟨"abc", "", ""⟩).maxDiffTokens = 700 := by
  decide

/-- Claim C6, amended: the token budget is resolved with strict
precedence among the sources that actually yield a value: an environment
variable that is set and parses as an integer wins; otherwise a
max-tokens key present in the first existing config file wins; otherwise
the built-in default 12500 is used. -/
theorem loadConfigMaxTokensPrecedence :
    (∀ (files : List (Option TomlFileOverrides)) (env : EnvVars) (n : Int),
      env.lazycommitMaxTokens ≠ "" → goAtoi env.lazycommitMaxTokens = some n →
      (loadConfig files env).maxDiffTokens = n) ∧
    (∀ (files : List (Option TomlFileOverrides)) (env : EnvVars)
      (f : TomlFileOverrides) (m : Int),
      (env.lazycommitMaxTokens = "" ∨ goAtoi env.lazycommitMaxTokens = none) →
      (files.filterMap id).head? = some f → f.maxDiffTokens = some m →
      (loadConfig files env).maxDiffTokens = m) ∧
    (∀ (files : List (Option TomlFileOverrides)) (env : EnvVars),
      (env.lazycommitMaxTokens = "" ∨ goAtoi env.lazycommitMaxTokens = none) →
      ((files.filterMap id).head? = none ∨
        ∃ f, (files.filterMap id).head? = some f ∧ f.maxDiffTokens = none) →
      (loadConfig files env).maxDiffTokens = 12500) := by
  refine ⟨?_, ?_, ?_⟩
  · intro files env n hNe hA
    simp [loadConfig, hNe, hA, apply_ite AppConfig.maxDiffTokens]
  · intro files env f m hEnv hHead hMax
    rcases hEnv with hEnv | hEnv
    · simp [loadConfig, hEnv, hHead, applyToml, hMax, apply_ite AppConfig.maxDiffTokens]
    · simp [loadConfig, hEnv, hHead, applyToml, hMax, apply_ite AppConfig.maxDiffTokens]
  · intro files env hEnv hFile
    rcases hFile with hFile | ⟨f, hHead, hMax⟩
    · rcases hEnv with hEnv | hEnv
      · simp [loadConfig, hEnv, hFile, DefaultConfig, apply_ite AppConfig.maxDiffTokens]
      · simp [loadConfig, hEnv, hFile, DefaultConfig, apply_ite AppConfig.maxDiffTokens]
    · rcases hEnv with hEnv | hEnv
      · simp [loadConfig, hEnv, hHead, hMax, applyToml, DefaultConfig,
          apply_ite AppConfig.maxDiffTokens]
      · simp [loadConfig, hEnv, hHead, hMax, applyToml, DefaultConfig,
          apply_ite AppConfig.maxDiffTokens]

theorem loadConfigMaxTokensPrecedence_witness :
    (loadConfig [some ⟨some 500, none, none⟩] ⟨"70", "", ""⟩).maxDiffTokens = 70 ∧
    (loadConfig [some ⟨some 500, none, none⟩] ⟨"", "", ""⟩).maxDiffTokens = 500 ∧
    (loadConfig [] ⟨"", "", ""⟩).maxDiffTokens = 12500 :=
  ⟨loadConfigMaxTokensPrecedence.1 [some ⟨some 500, none, none⟩] ⟨"70", "", ""⟩ 70
      (by decide) (by decide),
   loadConfigMaxTokensPrecedence.2.1 [some ⟨some 500, none, none⟩] ⟨"", "", ""⟩
      ⟨some 500, none, none⟩ 500 (Or.inl rfl) (by decide) rfl,
   loadConfigMaxTokensPrecedence.2.2 [] ⟨"", "", ""⟩ (Or.inl rfl) (Or.inl rfl)⟩

/-- An occurrence of the linguist pattern in a list persists when a
character is prepended. -/
theorem containsLinguist_cons (c : Char) (t : List Char)
    (h : containsLinguist t = true) : containsLinguist (c :: t) = true := by
  simp [containsLinguist, h]

/-- An occurrence of the linguist pattern in `l.dropWhile p` is an
occurrence in `l`. -/
theorem containsLinguist_dropWhile (p : Char → Bool) (l : List Char)
    (h : containsLinguist (l.dropWhile p) = true) : containsLinguist l = true := by
  induction l with
  | nil => simpa using h
  | cons c t ih =>
    rw [List.dropWhile_cons] at h
    by_cases hp : p c
    · simp only [hp, if_true] at h
      exact containsLinguist_cons c t (ih h)
    · simpa [hp] using h

/-- Claim C5: a .gitattributes line of the form
`generated.go linguist-generated=true` contributes the pattern
`generated.go`; a line in which the linguist-generated=true attribute
pattern does not occur contributes nothing; a comment line starting with
a hash contributes nothing; and a line contributing nothing is simply
skipped, leaving the patterns of all remaining lines intact. -/
theorem gitattributesLineParsing :
    parseGitattributesLine "generated.go linguist-generated=true" = some "generated.go" ∧
    (∀ line : String, containsLinguist line.toList = false →
      parseGitattributesLine line = none) ∧
    (∀ line : String, line.toList.head? = some '#' →
      parseGitattributesLine line = none) ∧
    (∀ (xs ys : List String) (bad : String), parseGitattributesLine bad = none →
      gitattributesPatternsOfLines (xs ++ bad :: ys) =
        gitattributesPatternsOfLines (xs ++ ys)) := by
  refine ⟨by decide, ?_, ?_, ?_⟩
  · intro line h
    unfold parseGitattributesLine
    cases hl : line.toList with
    | nil => rfl
    | cons c0 rest =>
      rw [hl] at h
      have hrest : containsLinguist rest = false := by
        cases hx : containsLinguist rest
        · rfl
        · rw [containsLinguist_cons c0 rest hx] at h
          exact absurd h (by simp)
      by_cases hc : c0 = '#'
      · simp [hc]
      · simp only [if_neg hc]
        cases htw : rest.takeWhile (fun c => !goWS c) with
        | nil => simp [htw]
        | cons r1 rrun =>
          cases hdw : rest.dropWhile (fun c => !goWS c) with
          | nil => simp [htw, hdw]
          | cons w tailChars =>
            have hdrop : containsLinguist (rest.dropWhile (fun c => !goWS c)) = false := by
              cases hx : containsLinguist (rest.dropWhile (fun c => !goWS c))
              · rfl
              · rw [containsLinguist_dropWhile _ rest hx] at hrest
                exact absurd hrest (by simp)
            rw [hdw] at hdrop
            have htail : containsLinguist tailChars = false := by
              cases hx : containsLinguist tailChars
              · rfl
              · rw [containsLinguist_cons w tailChars hx] at hdrop
                exact absurd hdrop (by simp)
            simp [htw, hdw, htail]
  · intro line h
    unfold parseGitattributesLine
    cases hl : line.toList with
    | nil => rfl
    | cons c0 rest =>
      rw [hl] at h
      simp only [List.head?_cons, Option.some.injEq] at h
      simp [h]
  · intro xs ys bad h
    simp [gitattributesPatternsOfLines, List.filterMap_append, List.filterMap_cons, h]

theorem gitattributesLineParsing_witness :
    parseGitattributesLine "hello world" = none ∧
    parseGitattributesLine "# generated.go linguist-generated=true" = none ∧
    gitattributesPatternsOfLines
        ["a.go linguist-generated=true", "bad line", "b.go linguist-generated=true"] =
      gitattributesPatternsOfLines
        ["a.go linguist-generated=true", "b.go linguist-generated=true"] :=
  ⟨gitattributesLineParsing.2.1 "hello world" (by decide),
   gitattributesLineParsing.2.2.1 "# generated.go linguist-generated=true" (by decide),
   gitattributesLineParsing.2.2.2 ["a.go linguist-generated=true"]
     ["b.go linguist-generated=true"] "bad line" (by decide)⟩

/-- The mode and error of one scanner step do not depend on the parts
accumulated so far. -/
theorem tmplStep_control (s : TmplScan) (c : Char) :
    ((tmplStep s c).mode, (tmplStep s c).err) = tmplControl (s.mode, s.err) c := by
  obtain ⟨m, p, e⟩ := s
  cases e with
  | some e => rfl
  | none =>
    cases m with
    | text => by_cases h : c = lbrace <;> simp [tmplStep, tmplControl, h]
    | sawL => by_cases h : c = lbrace <;> simp [tmplStep, tmplControl, h]
    | dir acc => by_cases h : c = rbrace <;> simp [tmplStep, tmplControl, h]
    | sawR acc =>
      by_cases h : c = rbrace
      · simp only [tmplStep, tmplControl, h, if_pos]
        cases hd : dirToPart acc.reverse <;> simp [hd]
      · simp [tmplStep, tmplControl, h]

/-- The mode and error of a whole scan are computed by folding
`tmplControl`, independently of accumulated parts. -/
theorem foldl_tmplStep_control (l : List Char) : ∀ s : TmplScan,
    ((l.foldl tmplStep s).mode, (l.foldl tmplStep s).err) =
      l.foldl tmplControl (s.mode, s.err) := by
  induction l with
  | nil => intro s; rfl
  | cons c t ih =>
    intro s
    rw [List.foldl_cons, List.foldl_cons, ih (tmplStep s c), tmplStep_control]

/-- A control scan over concatenated pieces, each of which maps plain-text
no-error state to plain-text no-error state, ends in plain-text no-error
state. -/
theorem foldl_control_join : ∀ ls : List (List Char),
    (∀ l ∈ ls, l.foldl tmplControl (TmplMode.text, (none : Option String)) =
      (TmplMode.text, none)) →
    ls.flatten.foldl tmplControl (TmplMode.text, (none : Option String)) =
      (TmplMode.text, none)
  | [], _ => rfl
  | l :: t, h => by
    rw [List.flatten_cons, List.foldl_append, h l (List.mem_cons_self l t)]
    exact foldl_control_join t (fun x hx => h x (List.mem_cons_of_mem l hx))

/-- Folding string concatenation and then taking characters is joining the
character lists. -/
theorem foldl_append_toList : ∀ (cs : List String) (init : String),
    (cs.foldl (· ++ ·) init).toList = init.toList ++ (cs.map String.toList).flatten := by
  intro cs
  induction cs with
  | nil => intro init; simp
  | cons c t ih =>
    intro init
    rw [List.foldl_cons, ih (init ++ c)]
    simp [String.toList, String.data_append]

/-- The control scan of the whole default prompt template ends in
plain-text no-error state (checked line by line). -/
theorem default_scan_control :
    DefaultPromptTemplate.toList.foldl tmplControl
      (TmplMode.text, (none : Option String)) = (TmplMode.text, none) := by
  have h1 : DefaultPromptTemplate.toList =
      (defaultTemplateChunks.map String.toList).flatten := by
    have h := foldl_append_toList defaultTemplateChunks ""
    simpa [DefaultPromptTemplate, String.join] using h
  rw [h1]
  exact foldl_control_join (defaultTemplateChunks.map String.toList) (by decide)

/-- Parsing the default prompt template succeeds, yielding the parts the
scan accumulated. -/
theorem parseTemplate_default :
    parseTemplate DefaultPromptTemplate =
      .ok (DefaultPromptTemplate.toList.foldl tmplStep ⟨.text, [], none⟩).parts.reverse := by
  have h := foldl_tmplStep_control DefaultPromptTemplate.toList ⟨.text, [], none⟩
  rw [default_scan_control] at h
  have hm : (DefaultPromptTemplate.toList.foldl tmplStep ⟨.text, [], none⟩).mode =
      TmplMode.text := congrArg Prod.fst h
  have he : (DefaultPromptTemplate.toList.foldl tmplStep ⟨.text, [], none⟩).err =
      none := congrArg Prod.snd h
  unfold parseTemplate tmplFinish
  rw [he, hm]

/-- Claim C10: a configured template path naming a nonexistent file is
never an error: when the path is empty or no file exists at it,
renderPromptTemplate behaves exactly as in the no-path case and succeeds,
rendering the embedded default template with the given data. -/
theorem renderPromptTemplateDefaultFallback (fs : String → Option String)
    (path : String) (data : PromptData)
    (h : path = "" ∨ fs path = none) :
    renderPromptTemplate fs path data = renderPromptTemplate fs "" data ∧
    ∃ out, renderPromptTemplate fs path data = Except.ok out := by
  have hsame : renderPromptTemplate fs path data = renderPromptTemplate fs "" data := by
    unfold renderPromptTemplate
    rcases h with h | h
    · rw [h]
    · by_cases hp : path = ""
      · rw [hp]
      · simp [hp, h]
  refine ⟨hsame, ?_⟩
  rw [hsame]
  have hred : renderPromptTemplate fs "" data =
      match parseTemplate DefaultPromptTemplate with
      | .error e => .error ("failed to parse template: " ++ e)
      | .ok parts => .ok (renderParts parts data) := rfl
  rw [hred, parseTemplate_default]
  exact ⟨_, rfl⟩

theorem renderPromptTemplateDefaultFallback_witness :
    renderPromptTemplate (fun _ => none) "missing" ⟨"main", "ctx"⟩ =
      renderPromptTemplate (fun _ => none) "" ⟨"main", "ctx"⟩ ∧
    ∃ out, renderPromptTemplate (fun _ => none) "missing" ⟨"main", "ctx"⟩ =
      Except.ok out :=
  renderPromptTemplateDefaultFallback (fun _ => none) "missing" ⟨"main", "ctx"⟩
    (Or.inr rfl)

/-- Claim C3, counterexample: the standard output of the LLM subprocess is
streamed directly to the standard output of the program, so a run in
which the subprocess writes partial commit-message text and then exits
non-zero makes generateCommitMessage return an error while that partial
text is on standard output. -/
theorem fatalFailurePartialOutput_cex :
    (generateCommitMessage worldLlmFails cfgTiny).outcome =
      GoOutcome.error "exit status 1" ∧
    (generateCommitMessage worldLlmFails cfgTiny).stdoutText = "feat: partial" ∧
    ("feat: partial" : String) ≠ "" := by
  decide

/-- Claim C3, amended: when generateCommitMessage fails before the LLM
subprocess is ever invoked (prompt rendering or diff collection failed,
or truncation panicked), nothing has been written to standard output as a
commit message; once the LLM subprocess runs, its output is streamed
through, so an LLM failure can leave partial text behind. -/
theorem noOutputWhenLlmNotReached (w : World) (config : Config)
    (h : (generateCommitMessage w config).llmStdin = none) :
    (generateCommitMessage w config).stdoutText = "" := by
  cases hR : renderPromptTemplate w.fs config.promptPath ⟨w.branch, config.userContext⟩ with
  | error e => simp [generateCommitMessage, hR]
  | ok prompt =>
    cases hD : getDiff w config with
    | error e => simp [generateCommitMessage, hR, hD]
    | ok diff =>
      cases hT : truncateDiff w.getTok diff config.maxDiffSize with
      | panic => simp [generateCommitMessage, hR, hD, hT]
      | ok t => simp [generateCommitMessage, hR, hD, hT, runLlmStep] at h
      | error e => simp [generateCommitMessage, hR, hD, hT, runLlmStep] at h

theorem noOutputWhenLlmNotReached_witness :
    (generateCommitMessage worldDiffFails cfgTiny).stdoutText = "" :=
  noOutputWhenLlmNotReached worldDiffFails cfgTiny (by decide)

/-- Claim C8: a failing truncateDiff is non-fatal: whenever prompt
rendering and diff collection succeed but truncateDiff returns an error,
generateCommitMessage still invokes the LLM subprocess, passes it the
untruncated original diff text on standard input, and its result is
whatever the LLM invocation yields — the run is not aborted by the
tokenization error. -/
theorem tokenizationFailureNonfatal (w : World) (config : Config)
    (prompt diff e : String)
    (hP : renderPromptTemplate w.fs config.promptPath ⟨w.branch, config.userContext⟩ =
      .ok prompt)
    (hD : getDiff w config = .ok diff)
    (hT : truncateDiff w.getTok diff config.maxDiffSize = .error e) :
    generateCommitMessage w config = runLlmStep w config prompt diff ∧
    (generateCommitMessage w config).llmStdin = some diff := by
  have h1 : generateCommitMessage w config = runLlmStep w config prompt diff := by
    unfold generateCommitMessage
    rw [hP, hD]
    simp [hT]
  exact ⟨h1, by rw [h1]; rfl⟩

theorem tokenizationFailureNonfatal_witness :
    generateCommitMessage worldNoTokenizer cfgTiny =
      runLlmStep worldNoTokenizer cfgTiny "hi" "the diff" ∧
    (generateCommitMessage worldNoTokenizer cfgTiny).llmStdin = some "the diff" :=
  tokenizationFailureNonfatal worldNoTokenizer cfgTiny "hi" "the diff"
    "failed to get tokenizer: boom" (by decide) (by decide) (by decide)
